import Mathlib

/-!
# Verification of the response-scoring pipeline

Shallow embedding of the scoring core of the campus-recruitment test
generator (`src/final.py`, with `src/duumy.py` and `src/app.py` as
near-duplicate variants).  The embedded functions are:

* `evaluate_with_llm` (final.py:201-290) — per-question evaluation through
  the Gemini judge, including the fence-stripping of the judge's reply and
  the per-question `try/except` fallback;
* the rubric-resolution loop and per-response processing of the
  "Evaluate Responses" page (final.py:1121-1158);
* `batch_evaluate_responses` (final.py:1609-1652);
* the guarded percentage of `analyze_student_performance` (final.py:1699-1701).

External collaborators (the generative model behind `model.generate_content`
and the stdlib `json.loads`) are passed as explicit function arguments
(`judge`, `jsonLoads`); everything else is translated from the source.
Python `str.split`, `str.strip`, `in`, `str.replace` and `float()` are
re-implemented here with Python's semantics so that all definitions are
executable by the kernel.  Python numbers are modelled by `ℚ` (exact
arithmetic in place of IEEE floats; no claim below depends on rounding).
-/

/-- JSON values, as produced by `json.loads` on the judge's reply.
Numbers are modelled by `ℚ`. -/
inductive Json where
  | num (q : ℚ)
  | str (s : String)
  | bool (b : Bool)
  | null
  | arr (elts : List Json)
  | obj (fields : List (String × Json))

/-- Python `dict` lookup (`d[k]`/`k in d`) on an association list whose keys
are unique (as built by `dictInsert`). -/
def lookupDict {α : Type} (k : String) (d : List (String × α)) : Option α :=
  (d.find? (fun p => p.1 == k)).map (fun p => p.2)

/-- Python `dict` assignment `d[k] = v`: an existing key keeps its position
and gets the new value, a new key is appended (insertion order). -/
def dictInsert {α : Type} (k : String) (v : α) (d : List (String × α)) :
    List (String × α) :=
  if d.any (fun p => p.1 == k) then
    d.map (fun p => if p.1 == k then (k, v) else p)
  else d ++ [(k, v)]

/-- Python whitespace for `str.strip()`. -/
def isPySpace (c : Char) : Bool :=
  c = ' ' || c = '\t' || c = '\n' || c = '\r' || c = '\x0b' || c = '\x0c'

/-- Python `str.strip()` (no arguments): remove leading and trailing
whitespace. -/
def pyStrip (s : String) : String :=
  ⟨((s.data.dropWhile isPySpace).reverse.dropWhile isPySpace).reverse⟩

/-- Fuel-driven worker for Python `str.split(sep)` with a non-empty
separator: scan left to right, cut at each (non-overlapping) occurrence of
`sep`.  `fuel ≥ length of the scanned list` guarantees completion. -/
def splitGo (sep : List Char) : Nat → List Char → List Char → List (List Char)
  | 0, s, acc => [acc.reverse ++ s]
  | fuel + 1, s, acc =>
    match s with
    | [] => [acc.reverse]
    | c :: rest =>
      if sep.isPrefixOf (c :: rest) then
        acc.reverse :: splitGo sep fuel ((c :: rest).drop sep.length) []
      else
        splitGo sep fuel rest (c :: acc)

/-- Python `s.split(sep)` for a non-empty separator. -/
def pySplit (s sep : String) : List String :=
  (splitGo sep.data (s.data.length + 1) s.data []).map (fun l => ⟨l⟩)

/-- Python `sub in s` (substring containment). -/
def pyIn (sub s : String) : Bool :=
  (List.range (s.data.length + 1)).any (fun i => sub.data.isPrefixOf (s.data.drop i))

/-- Python `s.replace(old, "")` (here only used to delete a substring, as in
`range_str.replace('%', '')`). -/
def pyRemove (s old : String) : String :=
  String.join (pySplit s old)

/-- Fence stripping applied to the raw model reply before `json.loads`
(final.py:270-273, duumy.py:319-322, app.py:242-245):

```python
if '```json' in evaluation_text:
    evaluation_text = evaluation_text.split('```json')[1].split('```')[0].strip()
elif '```' in evaluation_text:
    evaluation_text = evaluation_text.split('```')[1].strip()
```
-/
def extractJson (evaluation_text : String) : String :=
  if pyIn "```json" evaluation_text then
    pyStrip (((pySplit ((pySplit evaluation_text "```json").getD 1 "") "```").getD 0 ""))
  else if pyIn "```" evaluation_text then
    pyStrip ((pySplit evaluation_text "```").getD 1 "")
  else evaluation_text

/-- One entry of `question.get('test_cases', [])`; `input`/`output` are read
with `.get(..., '')`. -/
structure TestCase where
  input : Option String
  output : Option String

/-- A question record of the generated test (`test_data` JSON schema). -/
structure Question where
  question_id : String
  question_text : String
  question_type : String
  marks : Int
  correct_answer : Option String
  options : List String
  test_cases : List TestCase

/-- A section of the generated test. -/
structure Sect where
  section_name : String
  questions : List Question

/-- One band of the grading rubric: `{score_range, description}`. -/
structure Band where
  score_range : String
  description : String

/-- The generated test (`test_data`). -/
structure TestData where
  test_title : String
  total_duration : Int
  total_marks : Int
  sections : List Sect
  grading_rubric : List (String × Band)

/-- One stored answer: the take-test page writes
`{'question_type': ..., 'response': ...}`; `evaluate_with_llm` reads it with
`response.get('response', ...)`. -/
structure RespEntry where
  question_type : Option String
  response : Option String

/-- Per-question evaluation record written by `evaluate_with_llm`: always
exactly the three fields `score`, `feedback`, `evaluated`. -/
structure EvalResult where
  score : Json
  feedback : Json
  evaluated : Bool

/-- A stored response-set document (one candidate's submission). -/
structure ResponseSet where
  responses : List (String × RespEntry)
  evaluated : Bool
  evaluations : List (String × EvalResult)
  score : Option ℚ
  overall_feedback : Option String

/-- Python `str.lower()` (ASCII case folding suffices for the type tags). -/
def pyLower (s : String) : String := ⟨s.data.map Char.toLower⟩

/-- The evaluation prompt built for one question (final.py:212-263).  The
prompt text is judge input only; its indentation is not reproduced
character-for-character. -/
def buildPrompt (question : Question) (response : RespEntry) : String :=
  let base :=
    "Evaluate the following student response as a highly experienced software engineering interviewer.\n\n" ++
    "Question: " ++ question.question_text ++ "\n" ++
    "Question Type: " ++ question.question_type ++ "\n" ++
    "Maximum Marks: " ++ toString question.marks ++ "\n\n"
  let mid :=
    if pyLower question.question_type = "mcq" then
      "Correct Answer: " ++ question.correct_answer.getD "N/A" ++ "\n" ++
      "Student Answer: " ++ response.response.getD "No answer" ++ "\n\n" ++
      "Award " ++ toString question.marks ++ " marks if the answer is exactly correct.\n" ++
      "Award 0 marks if the answer is incorrect.\n"
    else if pyLower question.question_type = "coding" then
      "Student Code:\n```\n" ++ response.response.getD "# No code submitted" ++ "\n```\n\n" ++
      "Test Cases:\n" ++
      String.join (question.test_cases.map (fun tc =>
        "Input: " ++ tc.input.getD "" ++ ", Expected Output: " ++ tc.output.getD "" ++ "\n")) ++
      "Evaluate the code for:\n" ++
      "1. Correctness - Does it provide the expected output for all test cases?\n" ++
      "2. Efficiency - Is the algorithm efficient?\n" ++
      "3. Code quality - Is the code well-structured and readable?\n\n" ++
      "Award marks out of " ++ toString question.marks ++ " based on these criteria.\n"
    else
      "Expected Answer Key Points: " ++ question.correct_answer.getD "Not provided" ++ "\n" ++
      "Student Answer: " ++ response.response.getD "No answer" ++ "\n\n" ++
      "Award marks out of " ++ toString question.marks ++ " based on accuracy and completeness.\n"
  base ++ mid ++
    "Provide your evaluation in the following JSON format only:\n\x7b\n" ++
    "    \"marks\": [number between 0 and max marks],\n" ++
    "    \"feedback\": \"Detailed explanation for the marks awarded\"\n\x7d\n"

/-- Python subscript `evaluation[k]` on a parsed JSON value: a key lookup on
an object (KeyError when absent), a TypeError on any non-object. -/
def getField (j : Json) (k : String) : Except String Json :=
  match j with
  | Json.obj fields =>
    match (fields.find? (fun p => p.1 == k)).map (fun p => p.2) with
    | some v => Except.ok v
    | none => Except.error ("KeyError: " ++ k)
  | _ => Except.error "TypeError: value is not subscriptable by string"

/-- The placeholder record of the per-question `except` branch
(final.py:283-288). -/
def evalFailure (e : String) : EvalResult :=
  { score := Json.num 0
  , feedback := Json.str ("Automatic evaluation failed: " ++ e)
  , evaluated := false }

/-- The body of the per-question `try` block (final.py:265-288): call the
judge, strip a fenced block, parse the reply, read `marks` and `feedback`;
any failure along the way yields the `evalFailure` placeholder. -/
def judgeQuestion (judge : String → Except String String)
    (jsonLoads : String → Except String Json)
    (question : Question) (response : RespEntry) : EvalResult :=
  match judge (buildPrompt question response) with
  | Except.error e => evalFailure e
  | Except.ok evaluation_text =>
    match jsonLoads (extractJson evaluation_text) with
    | Except.error e => evalFailure e
    | Except.ok evaluation =>
      match getField evaluation "marks" with
      | Except.error e => evalFailure e
      | Except.ok m =>
        match getField evaluation "feedback" with
        | Except.error e => evalFailure e
        | Except.ok f => { score := m, feedback := f, evaluated := true }

/-- `evaluate_with_llm(student_responses, test_data)` (final.py:201-290):
for every question of every section, when the response map contains the
question id, store the judge-derived `EvalResult` under that id; questions
without a stored answer are skipped. -/
def evaluate_with_llm (judge : String → Except String String)
    (jsonLoads : String → Except String Json)
    (student_responses : ResponseSet) (test_data : TestData) :
    List (String × EvalResult) :=
  test_data.sections.foldl (fun all_evaluations sect =>
    sect.questions.foldl (fun all_evaluations question =>
      match lookupDict question.question_id student_responses.responses with
      | some response =>
        dictInsert question.question_id (judgeQuestion judge jsonLoads question response)
          all_evaluations
      | none => all_evaluations) all_evaluations) []

/-- All questions of a test in section order (`for section ... for question ...`). -/
def allQuestions (test_data : TestData) : List Question :=
  (test_data.sections.map (fun s => s.questions)).flatten

/-- Python's numeric view of a JSON value for `+`/`sum` (booleans count as
`1`/`0`, exactly as in CPython). -/
def pyNum? : Json → Option ℚ
  | Json.num q => some q
  | Json.bool b => some (if b then 1 else 0)
  | _ => none

/-- Python `sum(...)` over stored score values
(`sum(eval_data['score'] for eval_data in evaluations.values())`,
final.py:1126 and final.py:1635): starts from the int `0` and raises a
`TypeError` on the first non-numeric operand. -/
def pySum : List Json → Except String ℚ
  | [] => Except.ok 0
  | j :: rest =>
    match pyNum? j with
    | none => Except.error "TypeError: unsupported operand type(s) for +"
    | some q => (pySum rest).map (fun t => q + t)

/-- Digit run to its natural-number value. -/
def digitsVal (l : List Char) : Nat :=
  l.foldl (fun a c => a * 10 + (c.toNat - 48)) 0

/-- Exponent part of a float literal: empty, or `e`/`E` followed by an
optionally signed digit run. -/
def parseExp? (l : List Char) : Option ℤ :=
  match l with
  | [] => some 0
  | e :: rest =>
    if e = 'e' ∨ e = 'E' then
      let (sgn, digits) :=
        match rest with
        | '+' :: r => ((1 : ℤ), r)
        | '-' :: r => ((-1 : ℤ), r)
        | r => ((1 : ℤ), r)
      if digits ≠ [] ∧ digits.all Char.isDigit then
        some (sgn * (digitsVal digits : ℤ))
      else none
    else none

/-- Mantissa (and optional exponent) of a Python float literal:
`digits`, `digits.`, `.digits`, `digits.digits`, each optionally followed by
an exponent. -/
def parseMantissa? (l : List Char) : Option ℚ :=
  let intPart := l.takeWhile Char.isDigit
  let rest := l.dropWhile Char.isDigit
  match rest with
  | [] => if intPart = [] then none else some (digitsVal intPart : ℚ)
  | '.' :: afterDot =>
    let fracPart := afterDot.takeWhile Char.isDigit
    let rest2 := afterDot.dropWhile Char.isDigit
    if intPart = [] ∧ fracPart = [] then none
    else
      (parseExp? rest2).map (fun e =>
        ((digitsVal intPart : ℚ) + (digitsVal fracPart : ℚ) / (10 ^ fracPart.length)) *
          (10 : ℚ) ^ e)
  | _ =>
    if intPart = [] then none
    else (parseExp? rest).map (fun e => (digitsVal intPart : ℚ) * (10 : ℚ) ^ e)

/-- Python `float(s)` on decimal literals: surrounding whitespace is
ignored, an optional sign precedes the mantissa.  (The `inf`/`nan` words and
underscore separators accepted by CPython are outside this model; the
rubric ranges at issue are plain decimals.)  `none` models the `ValueError`
caught by the rubric loop's bare `except`. -/
def parsePyFloat? (s : String) : Option ℚ :=
  match (pyStrip s).data with
  | '+' :: rest => parseMantissa? rest
  | '-' :: rest => (parseMantissa? rest).map (fun q => -q)
  | l => parseMantissa? l

/-- `lower, upper = map(float, range_str.replace('%', '').split('-'))`
(final.py:1140): succeeds only when the split yields exactly two parts and
both parse as floats; any other shape is the `ValueError` swallowed by the
loop's `except: pass`. -/
def parseRange? (range_str : String) : Option (ℚ × ℚ) :=
  match pySplit (pyRemove range_str "%") "-" with
  | [a, b] =>
    match parsePyFloat? a, parsePyFloat? b with
    | some lower, some upper => some (lower, upper)
    | _, _ => none
  | _ => none

/-- The rubric-resolution loop of the Evaluate Responses page
(final.py:1133-1145), factored as the band it selects (the page then uses
the description, or the initial `""` when no band matches):

```python
for level, data in rubric.items():
    range_str = data.get('score_range', '')
    if '-' in range_str:
        try:
            lower, upper = map(float, range_str.replace('%', '').split('-'))
            if lower <= score_percentage <= upper:
                overall_feedback = data.get('description', '')
                break
        except:
            pass
```
-/
def rubricResolve (score_percentage : ℚ) (rubric : List (String × Band)) :
    Option String :=
  rubric.findSome? (fun band =>
    if pyIn "-" band.2.score_range then
      match parseRange? band.2.score_range with
      | some (lower, upper) =>
        if lower ≤ score_percentage ∧ score_percentage ≤ upper then
          some band.2.description
        else none
      | none => none
    else none)

/-- The fields `update_one` writes back for one response on the Evaluate
Responses page (final.py:1148-1158). -/
structure PageResult where
  evaluations : List (String × EvalResult)
  score : ℚ
  overall_feedback : String
  evaluated : Bool

/-- Processing of a single unevaluated response on the Evaluate Responses
page (final.py:1121-1158).  `score_percentage = (total_score / total_marks)
* 100` at final.py:1130 has no guard: `total_marks == 0` raises a
`ZeroDivisionError` (modelled as the error branch), aborting before
`evaluated` is set.  A `TypeError` from `sum` over non-numeric stored
scores likewise propagates. -/
def process_response (judge : String → Except String String)
    (jsonLoads : String → Except String Json)
    (test_data : TestData) (response : ResponseSet) : Except String PageResult :=
  let evaluations := evaluate_with_llm judge jsonLoads response test_data
  match pySum (evaluations.map (fun p => p.2.score)) with
  | Except.error e => Except.error e
  | Except.ok total_score =>
    if test_data.total_marks = 0 then
      Except.error "ZeroDivisionError: division by zero"
    else
      let score_percentage : ℚ := (total_score / (test_data.total_marks : ℚ)) * 100
      let overall_feedback := (rubricResolve score_percentage test_data.grading_rubric).getD ""
      Except.ok
        { evaluations := evaluations
        , score := total_score
        , overall_feedback := overall_feedback
        , evaluated := true }

/-- One iteration of the loop of `batch_evaluate_responses`
(final.py:1629-1650): evaluate, sum the scores, and produce the updated
document stored by `update_one`; an error is the exception caught by the
per-item `except`. -/
def batch_item (judge : String → Except String String)
    (jsonLoads : String → Except String Json)
    (test_data : TestData) (response : ResponseSet) : Except String ResponseSet :=
  let evaluations := evaluate_with_llm judge jsonLoads response test_data
  (pySum (evaluations.map (fun p => p.2.score))).map (fun total_score =>
    { response with
        evaluations := evaluations
      , score := some total_score
      , evaluated := true })

/-- Observable outcome of `batch_evaluate_responses`: the returned
`(bool, message)` pair plus the local `success_count`/`error_count`
counters and the documents written back through `update_one`. -/
structure BatchResult where
  ok : Bool
  message : String
  succeeded : Nat
  failed : Nat
  stored : List ResponseSet

/-- `batch_evaluate_responses(test_id)` (final.py:1609-1652), with the two
database reads supplied as arguments: `test_record` is the
`tests_collection.find_one` result and `responses` the full stored response
list, from which the `{"evaluated": {"$ne": True}}` query selects the
unevaluated ones.  Each response is processed inside `try/except`; a
failure only increments `error_count` and the loop continues. -/
def batch_evaluate_responses (judge : String → Except String String)
    (jsonLoads : String → Except String Json)
    (test_record : Option TestData) (responses : List ResponseSet) : BatchResult :=
  match test_record with
  | none => { ok := false, message := "Test not found", succeeded := 0, failed := 0, stored := [] }
  | some test_data =>
    let unevaluated_responses := responses.filter (fun r => !r.evaluated)
    if unevaluated_responses.isEmpty then
      { ok := false, message := "No unevaluated responses found"
      , succeeded := 0, failed := 0, stored := [] }
    else
      let st := unevaluated_responses.foldl
        (fun (st : Nat × Nat × List ResponseSet) response =>
          match batch_item judge jsonLoads test_data response with
          | Except.ok updated => (st.1 + 1, st.2.1, st.2.2 ++ [updated])
          | Except.error _ => (st.1, st.2.1 + 1, st.2.2)) (0, 0, [])
      { ok := true
      , message := "Evaluated " ++ toString st.1 ++ " responses successfully. " ++
          toString st.2.1 ++ " failed."
      , succeeded := st.1
      , failed := st.2.1
      , stored := st.2.2 }

/-- The percentage computed by `analyze_student_performance`
(final.py:1699-1701), which — unlike the Evaluate Responses page — guards
the zero-marks case:
`score_percentage = (total_score / total_marks) * 100 if total_marks > 0 else 0`. -/
def analyze_percentage (student_responses : ResponseSet) (test_data : TestData) :
    Except String ℚ :=
  (pySum (student_responses.evaluations.map (fun p => p.2.score))).map
    (fun total_score =>
      if test_data.total_marks > 0 then
        (total_score / (test_data.total_marks : ℚ)) * 100
      else 0)

/-! ## Association-list (Python `dict`) lemmas -/

theorem lookupDict_nil {α : Type} (k : String) :
    lookupDict k ([] : List (String × α)) = none := rfl

theorem lookupDict_cons {α : Type} (x k : String) (y : α) (d : List (String × α)) :
    lookupDict k ((x, y) :: d) = if x == k then some y else lookupDict k d := by
  unfold lookupDict
  rw [List.find?_cons]
  cases h : (x == k) <;> simp [h]

theorem lookupDict_map_assign {α : Type} (k : String) (v : α) :
    ∀ d : List (String × α), d.any (fun p => p.1 == k) = true →
      lookupDict k (d.map (fun p => if p.1 == k then (k, v) else p)) = some v := by
  intro d
  induction d with
  | nil => intro h; simp at h
  | cons p d ih =>
    intro h
    obtain ⟨x, y⟩ := p
    by_cases hk : x = k
    · have hk' : (x == k) = true := beq_iff_eq.mpr hk
      have hmap : (((x, y) :: d).map (fun p => if p.1 == k then (k, v) else p)) =
          (k, v) :: d.map (fun p => if p.1 == k then (k, v) else p) := by
        rw [List.map_cons, if_pos hk']
      rw [hmap, lookupDict_cons, if_pos (beq_iff_eq.mpr rfl)]
    · have hk' : (x == k) = false := beq_eq_false_iff_ne.mpr hk
      simp only [List.any_cons, hk', Bool.false_or] at h
      have hmap : (((x, y) :: d).map (fun p => if p.1 == k then (k, v) else p)) =
          (x, y) :: d.map (fun p => if p.1 == k then (k, v) else p) := by
        rw [List.map_cons, if_neg (by simp [hk'])]
      rw [hmap, lookupDict_cons, if_neg (by simp [hk']), ih h]

theorem lookupDict_dictInsert_self {α : Type} (k : String) (v : α)
    (d : List (String × α)) : lookupDict k (dictInsert k v d) = some v := by
  unfold dictInsert
  by_cases h : d.any (fun p => p.1 == k) = true
  · rw [if_pos h]; exact lookupDict_map_assign k v d h
  · rw [if_neg h]
    have hnone : d.find? (fun p => p.1 == k) = none := by
      rw [List.find?_eq_none]
      intro p hp hbeq
      exact h (List.any_eq_true.mpr ⟨p, hp, hbeq⟩)
    simp [lookupDict, List.find?_append, hnone, List.find?]

theorem lookupDict_map_assign_ne {α : Type} (k k' : String) (v : α)
    (hkk : (k == k') = false) :
    ∀ d : List (String × α),
      lookupDict k' (d.map (fun p => if p.1 == k then (k, v) else p)) =
        lookupDict k' d := by
  intro d
  induction d with
  | nil => rfl
  | cons p d ih =>
    obtain ⟨x, y⟩ := p
    by_cases hk : x = k
    · have hk' : (x == k) = true := beq_iff_eq.mpr hk
      have hmap : (((x, y) :: d).map (fun p => if p.1 == k then (k, v) else p)) =
          (k, v) :: d.map (fun p => if p.1 == k then (k, v) else p) := by
        rw [List.map_cons, if_pos hk']
      have hx : (x == k') = false := by rw [hk]; exact hkk
      rw [hmap, lookupDict_cons, if_neg (by simp [hkk]), ih, lookupDict_cons,
        if_neg (by simp [hx])]
    · have hk' : (x == k) = false := beq_eq_false_iff_ne.mpr hk
      have hmap : (((x, y) :: d).map (fun p => if p.1 == k then (k, v) else p)) =
          (x, y) :: d.map (fun p => if p.1 == k then (k, v) else p) := by
        rw [List.map_cons, if_neg (by simp [hk'])]
      rw [hmap, lookupDict_cons, lookupDict_cons, ih]

theorem lookupDict_dictInsert_ne {α : Type} (k k' : String) (v : α)
    (d : List (String × α)) (hne : k' ≠ k) :
    lookupDict k' (dictInsert k v d) = lookupDict k' d := by
  have hkk : (k == k') = false := beq_eq_false_iff_ne.mpr (Ne.symm hne)
  unfold dictInsert
  by_cases h : d.any (fun p => p.1 == k) = true
  · rw [if_pos h]
    exact lookupDict_map_assign_ne k k' v hkk d
  · rw [if_neg h]
    unfold lookupDict
    rw [List.find?_append]
    have : List.find? (fun p => p.1 == k') [(k, v)] = none := by
      simp [List.find?, hkk]
    rw [this]
    cases hfind : d.find? (fun p => p.1 == k') <;> simp

theorem mem_dictInsert {α : Type} {k : String} {v : α} {d : List (String × α)}
    {p : String × α} (hp : p ∈ dictInsert k v d) : p = (k, v) ∨ p ∈ d := by
  unfold dictInsert at hp
  by_cases h : d.any (fun q => q.1 == k) = true
  · rw [if_pos h] at hp
    obtain ⟨q, hq, hfq⟩ := List.mem_map.mp hp
    by_cases hqk : q.1 = k
    · left; rw [← hfq]; simp [beq_iff_eq.mpr hqk]
    · right; rw [← hfq]; simpa [beq_eq_false_iff_ne.mpr hqk] using hq
  · rw [if_neg h] at hp
    rcases List.mem_append.mp hp with h1 | h2
    · right; exact h1
    · left; simpa using h2

/-! ## Evaluation-fold lemmas -/

/-- The loop body of `evaluate_with_llm` for one question. -/
def evalStep (judge : String → Except String String)
    (jsonLoads : String → Except String Json) (student_responses : ResponseSet)
    (all_evaluations : List (String × EvalResult)) (question : Question) :
    List (String × EvalResult) :=
  match lookupDict question.question_id student_responses.responses with
  | some response =>
    dictInsert question.question_id (judgeQuestion judge jsonLoads question response)
      all_evaluations
  | none => all_evaluations

theorem evaluate_with_llm_eq_foldl (judge : String → Except String String)
    (jsonLoads : String → Except String Json) (resp : ResponseSet) (test : TestData) :
    evaluate_with_llm judge jsonLoads resp test =
      (allQuestions test).foldl (evalStep judge jsonLoads resp) [] := by
  unfold evaluate_with_llm allQuestions evalStep
  rw [List.foldl_flatten, List.foldl_map]

theorem foldl_evalStep_lookup_unanswered (judge : String → Except String String)
    (jsonLoads : String → Except String Json) (resp : ResponseSet) (qid : String)
    (hq : lookupDict qid resp.responses = none) :
    ∀ (qs : List Question) (acc : List (String × EvalResult)),
      lookupDict qid (qs.foldl (evalStep judge jsonLoads resp) acc) =
        lookupDict qid acc := by
  intro qs
  induction qs with
  | nil => intro acc; rfl
  | cons q qs ih =>
    intro acc
    rw [List.foldl_cons, ih]
    unfold evalStep
    cases hr : lookupDict q.question_id resp.responses with
    | none => rfl
    | some e =>
      by_cases hid : q.question_id = qid
      · rw [hid] at hr; rw [hr] at hq; cases hq
      · exact lookupDict_dictInsert_ne _ _ _ _ (Ne.symm hid)

theorem foldl_evalStep_lookup_answered (judge : String → Except String String)
    (jsonLoads : String → Except String Json) (resp : ResponseSet) (qid : String)
    (e : RespEntry) (he : lookupDict qid resp.responses = some e) :
    ∀ (qs : List Question) (acc : List (String × EvalResult)),
      lookupDict qid (qs.foldl (evalStep judge jsonLoads resp) acc) =
        match (qs.filter (fun q => q.question_id == qid)).getLast? with
        | some q => some (judgeQuestion judge jsonLoads q e)
        | none => lookupDict qid acc := by
  intro qs
  induction qs with
  | nil => intro acc; rfl
  | cons q qs ih =>
    intro acc
    rw [List.foldl_cons, ih]
    by_cases hid : q.question_id = qid
    · have hb : (q.question_id == qid) = true := beq_iff_eq.mpr hid
      have hstep : evalStep judge jsonLoads resp acc q =
          dictInsert qid (judgeQuestion judge jsonLoads q e) acc := by
        unfold evalStep
        rw [hid, he]
      rw [hstep]
      simp only [List.filter_cons, hb, if_pos]
      cases hlast : (qs.filter (fun q => q.question_id == qid)).getLast? with
      | some q' => simp [List.getLast?_cons, hlast]
      | none =>
        simp [List.getLast?_cons, hlast, lookupDict_dictInsert_self]
    · have hb : (q.question_id == qid) = false := beq_eq_false_iff_ne.mpr hid
      have hstep : lookupDict qid (evalStep judge jsonLoads resp acc q) =
          lookupDict qid acc := by
        unfold evalStep
        cases hr : lookupDict q.question_id resp.responses with
        | none => rfl
        | some e' => exact lookupDict_dictInsert_ne _ _ _ _ (Ne.symm hid)
      rw [List.filter_cons_of_neg (by simp [hb])]
      cases hlast : (qs.filter (fun q => q.question_id == qid)).getLast? with
      | some q' => simp only [hlast]
      | none => simp only [hlast]; exact hstep

theorem evaluate_lookup_unanswered (judge : String → Except String String)
    (jsonLoads : String → Except String Json) (resp : ResponseSet) (test : TestData)
    (qid : String) (hq : lookupDict qid resp.responses = none) :
    lookupDict qid (evaluate_with_llm judge jsonLoads resp test) = none := by
  rw [evaluate_with_llm_eq_foldl,
    foldl_evalStep_lookup_unanswered judge jsonLoads resp qid hq]
  rfl

theorem evaluate_lookup_unique (judge : String → Except String String)
    (jsonLoads : String → Except String Json) (resp : ResponseSet) (test : TestData)
    (qid : String) (q : Question) (e : RespEntry)
    (hfilter : (allQuestions test).filter (fun q2 => q2.question_id == qid) = [q])
    (he : lookupDict qid resp.responses = some e) :
    lookupDict qid (evaluate_with_llm judge jsonLoads resp test) =
      some (judgeQuestion judge jsonLoads q e) := by
  rw [evaluate_with_llm_eq_foldl,
    foldl_evalStep_lookup_answered judge jsonLoads resp qid e he, hfilter]
  rfl

/-! ## Per-question judging lemmas -/

theorem judgeQuestion_ok (judge : String → Except String String)
    (jsonLoads : String → Except String Json) (question : Question)
    (response : RespEntry) (txt : String) (ev m f : Json)
    (hj : judge (buildPrompt question response) = Except.ok txt)
    (hp : jsonLoads (extractJson txt) = Except.ok ev)
    (hm : getField ev "marks" = Except.ok m)
    (hf : getField ev "feedback" = Except.ok f) :
    judgeQuestion judge jsonLoads question response =
      { score := m, feedback := f, evaluated := true } := by
  simp only [judgeQuestion, hj, hp, hm, hf]

theorem judgeQuestion_judge_error (judge : String → Except String String)
    (jsonLoads : String → Except String Json) (question : Question)
    (response : RespEntry) (e : String)
    (hj : judge (buildPrompt question response) = Except.error e) :
    judgeQuestion judge jsonLoads question response = evalFailure e := by
  unfold judgeQuestion
  rw [hj]

theorem judgeQuestion_parse_error (judge : String → Except String String)
    (jsonLoads : String → Except String Json) (question : Question)
    (response : RespEntry) (txt e : String)
    (hj : judge (buildPrompt question response) = Except.ok txt)
    (hp : jsonLoads (extractJson txt) = Except.error e) :
    judgeQuestion judge jsonLoads question response = evalFailure e := by
  simp only [judgeQuestion, hj, hp]

theorem judgeQuestion_shape (judge : String → Except String String)
    (jsonLoads : String → Except String Json) (question : Question)
    (response : RespEntry) :
    (∃ msg, judgeQuestion judge jsonLoads question response = evalFailure msg) ∨
    ∃ m f, judgeQuestion judge jsonLoads question response =
      { score := m, feedback := f, evaluated := true } := by
  unfold judgeQuestion
  cases judge (buildPrompt question response) with
  | error msg => exact Or.inl ⟨msg, rfl⟩
  | ok txt =>
    dsimp only
    cases jsonLoads (extractJson txt) with
    | error msg => exact Or.inl ⟨msg, rfl⟩
    | ok ev =>
      dsimp only
      cases getField ev "marks" with
      | error msg => exact Or.inl ⟨msg, rfl⟩
      | ok m =>
        dsimp only
        cases getField ev "feedback" with
        | error msg => exact Or.inl ⟨msg, rfl⟩
        | ok f => exact Or.inr ⟨m, f, rfl⟩

theorem judgeQuestion_score_zero_of_not_evaluated
    (judge : String → Except String String)
    (jsonLoads : String → Except String Json) (question : Question)
    (response : RespEntry)
    (h : (judgeQuestion judge jsonLoads question response).evaluated = false) :
    (judgeQuestion judge jsonLoads question response).score = Json.num 0 := by
  rcases judgeQuestion_shape judge jsonLoads question response with ⟨msg, hmsg⟩ | ⟨m, f, hmf⟩
  · rw [hmsg]; rfl
  · rw [hmf] at h; cases h

theorem mem_foldl_evalStep (judge : String → Except String String)
    (jsonLoads : String → Except String Json) (resp : ResponseSet)
    (P : EvalResult → Prop)
    (hP : ∀ q e, P (judgeQuestion judge jsonLoads q e)) :
    ∀ (qs : List Question) (acc : List (String × EvalResult)),
      (∀ p ∈ acc, P p.2) →
      ∀ p ∈ qs.foldl (evalStep judge jsonLoads resp) acc, P p.2 := by
  intro qs
  induction qs with
  | nil => intro acc hacc p hp; exact hacc p hp
  | cons q qs ih =>
    intro acc hacc p hp
    rw [List.foldl_cons] at hp
    refine ih (evalStep judge jsonLoads resp acc q) ?_ p hp
    intro p' hp'
    unfold evalStep at hp'
    cases hr : lookupDict q.question_id resp.responses with
    | none => rw [hr] at hp'; exact hacc p' hp'
    | some e =>
      rw [hr] at hp'
      rcases mem_dictInsert hp' with h1 | h2
      · rw [h1]; exact hP q e
      · exact hacc p' h2

theorem mem_evaluate_score_zero (judge : String → Except String String)
    (jsonLoads : String → Except String Json) (resp : ResponseSet) (test : TestData) :
    ∀ p ∈ evaluate_with_llm judge jsonLoads resp test,
      p.2.evaluated = false → p.2.score = Json.num 0 := by
  intro p hp
  rw [evaluate_with_llm_eq_foldl] at hp
  exact mem_foldl_evalStep judge jsonLoads resp
    (fun r => r.evaluated = false → r.score = Json.num 0)
    (fun q e => judgeQuestion_score_zero_of_not_evaluated judge jsonLoads q e)
    (allQuestions test) [] (by intro p h; cases h) p hp

theorem evaluate_lookup_isSome (judge : String → Except String String)
    (jsonLoads : String → Except String Json) (resp : ResponseSet) (test : TestData)
    (qid : String) :
    (lookupDict qid (evaluate_with_llm judge jsonLoads resp test)).isSome = true ↔
      (qid ∈ (allQuestions test).map (fun q => q.question_id) ∧
        (lookupDict qid resp.responses).isSome = true) := by
  cases hr : lookupDict qid resp.responses with
  | none =>
    rw [evaluate_lookup_unanswered judge jsonLoads resp test qid hr]
    simp
  | some e =>
    rw [evaluate_with_llm_eq_foldl, foldl_evalStep_lookup_answered judge jsonLoads resp qid e hr]
    cases hlast : ((allQuestions test).filter (fun q2 => q2.question_id == qid)).getLast? with
    | some q =>
      simp only [hlast, Option.isSome_some, Option.isSome_none, true_iff, and_true]
      have hq : q ∈ (allQuestions test).filter (fun q2 => q2.question_id == qid) :=
        List.mem_of_getLast?_eq_some hlast
      have hmem := List.mem_filter.mp hq
      exact List.mem_map.mpr ⟨q, hmem.1, beq_iff_eq.mp hmem.2⟩
    | none =>
      have hnil : (allQuestions test).filter (fun q2 => q2.question_id == qid) = [] :=
        List.getLast?_eq_none_iff.mp hlast
      simp only [lookupDict_nil, Option.isSome_none]
      constructor
      · intro h; cases h
      · rintro ⟨hmem, -⟩
        obtain ⟨q, hq, hid⟩ := List.mem_map.mp hmem
        have : q ∈ (allQuestions test).filter (fun q2 => q2.question_id == qid) :=
          List.mem_filter.mpr ⟨hq, beq_iff_eq.mpr hid⟩
        rw [hnil] at this
        cases this

/-! ## Rubric-resolution lemmas -/

/-- The per-band matcher of the rubric loop (the body of the `for` at
final.py:1136-1145). -/
def rubricBandMatch (score_percentage : ℚ) (band : String × Band) : Option String :=
  if pyIn "-" band.2.score_range then
    match parseRange? band.2.score_range with
    | some (lower, upper) =>
      if lower ≤ score_percentage ∧ score_percentage ≤ upper then
        some band.2.description
      else none
    | none => none
  else none

theorem rubricResolve_eq_findSome (p : ℚ) (rubric : List (String × Band)) :
    rubricResolve p rubric = rubric.findSome? (rubricBandMatch p) := rfl

/-- A band "accepts" a percentage when the loop body would select it:
its range string contains `-`, parses (after `%`-removal) into two bounds,
and the percentage lies inclusively between them. -/
def bandAccepts (p : ℚ) (b : Band) : Prop :=
  pyIn "-" b.score_range = true ∧
    ∃ lower upper, parseRange? b.score_range = some (lower, upper) ∧
      lower ≤ p ∧ p ≤ upper

theorem rubricBandMatch_some_iff (p : ℚ) (nb : String × Band) (d : String) :
    rubricBandMatch p nb = some d ↔ bandAccepts p nb.2 ∧ d = nb.2.description := by
  unfold rubricBandMatch bandAccepts
  by_cases hin : pyIn "-" nb.2.score_range = true
  · rw [if_pos hin]
    cases hp : parseRange? nb.2.score_range with
    | none =>
      dsimp only
      constructor
      · intro h; cases h
      · rintro ⟨⟨-, lo, hi, hlo, -, -⟩, -⟩; cases hlo
    | some r =>
      obtain ⟨lo, hi⟩ := r
      dsimp only
      by_cases hle : lo ≤ p ∧ p ≤ hi
      · rw [if_pos hle]
        constructor
        · intro h
          exact ⟨⟨hin, lo, hi, rfl, hle.1, hle.2⟩, (Option.some_inj.mp h).symm⟩
        · rintro ⟨-, hd⟩; rw [hd]
      · rw [if_neg hle]
        constructor
        · intro h; cases h
        · rintro ⟨⟨-, lo', hi', hlo', h1, h2⟩, -⟩
          have hpair : (lo, hi) = (lo', hi') := Option.some_inj.mp hlo'
          have hlo2 : lo = lo' := congrArg Prod.fst hpair
          have hhi2 : hi = hi' := congrArg Prod.snd hpair
          rw [← hlo2] at h1
          rw [← hhi2] at h2
          exact absurd ⟨h1, h2⟩ hle
  · rw [if_neg hin]
    constructor
    · intro h; cases h
    · rintro ⟨⟨hin', -⟩, -⟩; exact absurd hin' hin

theorem rubricBandMatch_none_iff (p : ℚ) (nb : String × Band) :
    rubricBandMatch p nb = none ↔ ¬ bandAccepts p nb.2 := by
  constructor
  · intro h hacc
    rcases hacc with ⟨hin, lo, hi, hp, h1, h2⟩
    unfold rubricBandMatch at h
    rw [if_pos hin, hp] at h
    dsimp only at h
    rw [if_pos ⟨h1, h2⟩] at h
    cases h
  · intro h
    cases hm : rubricBandMatch p nb with
    | none => rfl
    | some d =>
      exact absurd ((rubricBandMatch_some_iff p nb d).mp hm).1 h

theorem rubricResolve_sound (p : ℚ) :
    ∀ (rubric : List (String × Band)) (d : String),
      rubricResolve p rubric = some d →
      ∃ pre name b post, rubric = pre ++ (name, b) :: post ∧ d = b.description ∧
        bandAccepts p b ∧ ∀ nb ∈ pre, ¬ bandAccepts p nb.2 := by
  intro rubric
  induction rubric with
  | nil => intro d h; cases h
  | cons nb rest ih =>
    intro d h
    rw [rubricResolve_eq_findSome, List.findSome?_cons] at h
    cases hm : rubricBandMatch p nb with
    | some d2 =>
      rw [hm] at h
      have hdd : d2 = d := Option.some_inj.mp h
      obtain ⟨hacc, hd⟩ := (rubricBandMatch_some_iff p nb d2).mp hm
      exact ⟨[], nb.1, nb.2, rest, by simp, by rw [← hdd]; exact hd, hacc, by simp⟩
    | none =>
      rw [hm] at h
      obtain ⟨pre, name, b, post, hsplit, hd, hacc, hpre⟩ := ih d h
      refine ⟨nb :: pre, name, b, post, by rw [hsplit]; rfl, hd, hacc, ?_⟩
      intro nb' hnb'
      rcases List.mem_cons.mp hnb' with h1 | h2
      · rw [h1]; exact (rubricBandMatch_none_iff p nb).mp hm
      · exact hpre nb' h2

theorem rubricResolve_none_complete (p : ℚ) :
    ∀ (rubric : List (String × Band)),
      rubricResolve p rubric = none →
      ∀ nb ∈ rubric, ¬ bandAccepts p nb.2 := by
  intro rubric
  induction rubric with
  | nil => intro h nb hnb; cases hnb
  | cons nb0 rest ih =>
    intro h nb hnb
    rw [rubricResolve_eq_findSome, List.findSome?_cons] at h
    cases hm : rubricBandMatch p nb0 with
    | some d => rw [hm] at h; cases h
    | none =>
      rw [hm] at h
      rcases List.mem_cons.mp hnb with h1 | h2
      · rw [h1]; exact (rubricBandMatch_none_iff p nb0).mp hm
      · exact ih h nb h2

/-! ## Batch-fold lemmas -/

theorem batch_foldl_counts (f : ResponseSet → Except String ResponseSet) :
    ∀ (rs : List ResponseSet) (a b : Nat) (st : List ResponseSet),
      rs.foldl
        (fun (st : Nat × Nat × List ResponseSet) response =>
          match f response with
          | Except.ok updated => (st.1 + 1, st.2.1, st.2.2 ++ [updated])
          | Except.error _ => (st.1, st.2.1 + 1, st.2.2)) (a, b, st) =
      (a + (rs.filter (fun r => (f r).toOption.isSome)).length,
       b + (rs.filter (fun r => !(f r).toOption.isSome)).length,
       st ++ rs.filterMap (fun r => (f r).toOption)) := by
  intro rs
  induction rs with
  | nil => intro a b st; simp
  | cons r rs ih =>
    intro a b st
    rw [List.foldl_cons]
    cases hr : f r with
    | ok u =>
      have h1 : (f r).toOption = some u := by rw [hr]; rfl
      dsimp only
      rw [ih]
      rw [List.filter_cons_of_pos (by simp [h1]),
        List.filter_cons_of_neg (by simp [h1]),
        List.filterMap_cons]
      simp only [h1, Prod.mk.injEq, List.length_cons]
      refine ⟨by omega, by trivial, by simp⟩
    | error e =>
      have h1 : (f r).toOption = none := by rw [hr]; rfl
      dsimp only
      rw [ih]
      rw [List.filter_cons_of_neg (by simp [h1]),
        List.filter_cons_of_pos (by simp [h1]),
        List.filterMap_cons]
      simp only [h1, Prod.mk.injEq, List.length_cons]
      refine ⟨by trivial, by omega, by simp⟩

/-! ## Substring-occurrence and split lemmas (fence stripping) -/

/-- `sep` occurs nowhere in `s` (as a contiguous substring). -/
def FreeOf (sep s : List Char) : Prop :=
  ∀ i : Nat, sep.isPrefixOf (s.drop i) = false

theorem freeOf_nil (sep : List Char) (h : sep ≠ []) : FreeOf sep [] := by
  intro i
  rw [List.drop_nil]
  cases sep with
  | nil => exact absurd rfl h
  | cons c cs => rfl

theorem freeOf_cons_iff (sep : List Char) (c : Char) (l : List Char) :
    FreeOf sep (c :: l) ↔ sep.isPrefixOf (c :: l) = false ∧ FreeOf sep l := by
  constructor
  · intro h
    refine ⟨h 0, fun i => ?_⟩
    have h1 := h (i + 1)
    rwa [List.drop_succ_cons] at h1
  · rintro ⟨h0, h⟩ i
    cases i with
    | zero => exact h0
    | succ i => rw [List.drop_succ_cons]; exact h i

theorem isPrefixOf_cons_false_of_ne (hc c : Char) (sep' l : List Char)
    (h : c ≠ hc) : (hc :: sep').isPrefixOf (c :: l) = false := by
  simp [List.isPrefixOf, beq_eq_false_iff_ne.mpr (Ne.symm h)]

theorem freeOf_of_not_mem (hc : Char) (sep' s : List Char) (hmem : hc ∉ s) :
    FreeOf (hc :: sep') s := by
  induction s with
  | nil => exact freeOf_nil _ (by simp)
  | cons c l ih =>
    have hcne : c ≠ hc := fun h => hmem (h ▸ List.mem_cons_self c l)
    exact (freeOf_cons_iff _ _ _).mpr
      ⟨isPrefixOf_cons_false_of_ne hc c sep' l hcne,
       ih (fun h => hmem (List.mem_cons_of_mem c h))⟩

theorem freeOf_append (hc : Char) (sep' : List Char) :
    ∀ (a b : List Char), hc ∉ a → FreeOf (hc :: sep') b →
      FreeOf (hc :: sep') (a ++ b) := by
  intro a
  induction a with
  | nil => intro b _ hb; simpa using hb
  | cons c a' ih =>
    intro b hmem hb
    have hcne : c ≠ hc := fun h => hmem (h ▸ List.mem_cons_self c a')
    rw [List.cons_append]
    exact (freeOf_cons_iff _ _ _).mpr
      ⟨isPrefixOf_cons_false_of_ne hc c sep' _ hcne,
       ih b (fun h => hmem (List.mem_cons_of_mem c h)) hb⟩

theorem length_le_of_isPrefixOf (sep t : List Char) (h : sep.isPrefixOf t = true) :
    sep.length ≤ t.length :=
  (List.isPrefixOf_iff_prefix.mp h).length_le

theorem freeOf_of_short (sep s : List Char) (h : s.length < sep.length) :
    FreeOf sep s := by
  intro i
  cases hp : sep.isPrefixOf (s.drop i) with
  | false => rfl
  | true =>
    have h1 := length_le_of_isPrefixOf sep (s.drop i) hp
    have h2 : (s.drop i).length ≤ s.length := by
      rw [List.length_drop]; omega
    omega

theorem isPrefixOf_append_self (l r : List Char) : l.isPrefixOf (l ++ r) = true :=
  List.isPrefixOf_iff_prefix.mpr (List.prefix_append l r)

theorem pyIn_of_isPrefixOf (sub s : String)
    (h : sub.data.isPrefixOf s.data = true) : pyIn sub s = true := by
  unfold pyIn
  rw [List.any_eq_true]
  exact ⟨0, List.mem_range.mpr (Nat.succ_pos _), by simpa using h⟩

theorem pyIn_eq_false_of_freeOf (sub s : String) (h : FreeOf sub.data s.data) :
    pyIn sub s = false := by
  unfold pyIn
  rw [List.any_eq_false]
  intro i _
  simp [h i]

theorem splitGo_fuel_zero (sep s acc : List Char) :
    splitGo sep 0 s acc = [acc.reverse ++ s] := rfl

theorem splitGo_fuel_nil (sep : List Char) (n : Nat) (acc : List Char) :
    splitGo sep (n + 1) [] acc = [acc.reverse] := rfl

theorem splitGo_cons_eq (sep : List Char) (n : Nat) (c : Char) (rest acc : List Char) :
    splitGo sep (n + 1) (c :: rest) acc =
      if sep.isPrefixOf (c :: rest) then
        acc.reverse :: splitGo sep n ((c :: rest).drop sep.length) []
      else splitGo sep n rest (c :: acc) := rfl

theorem splitGo_free (sep : List Char) :
    ∀ (n : Nat) (s acc : List Char), FreeOf sep s → s.length < n →
      splitGo sep n s acc = [acc.reverse ++ s] := by
  intro n
  induction n with
  | zero => intro s acc _ h; omega
  | succ n ih =>
    intro s acc hf hlen
    cases s with
    | nil => rw [splitGo_fuel_nil]; simp
    | cons c rest =>
      obtain ⟨h0, hrest⟩ := (freeOf_cons_iff sep c rest).mp hf
      rw [splitGo_cons_eq, if_neg (by simp [h0])]
      rw [ih rest (c :: acc) hrest (by simp at hlen; omega)]
      simp

theorem splitGo_skip (hc : Char) (sep' : List Char) :
    ∀ (a : List Char), hc ∉ a → ∀ (m : Nat) (b acc : List Char),
      splitGo (hc :: sep') (a.length + m) (a ++ b) acc =
        splitGo (hc :: sep') m b (a.reverse ++ acc) := by
  intro a
  induction a with
  | nil => intro _ m b acc; simp
  | cons c a' ih =>
    intro hmem m b acc
    have hcne : c ≠ hc := fun h => hmem (h ▸ List.mem_cons_self c a')
    have harith : (c :: a').length + m = (a'.length + m) + 1 := by
      simp [List.length_cons]; omega
    rw [harith, List.cons_append, splitGo_cons_eq,
      if_neg (by simp [isPrefixOf_cons_false_of_ne hc c sep' _ hcne]),
      ih (fun h => hmem (List.mem_cons_of_mem c h)) m b (c :: acc)]
    simp

theorem splitGo_hit (sep : List Char) (s : List Char) (hsep : sep ≠ [])
    (n : Nat) (acc : List Char) (hpre : sep.isPrefixOf s = true) :
    splitGo sep (n + 1) s acc =
      acc.reverse :: splitGo sep n (s.drop sep.length) [] := by
  cases s with
  | nil =>
    cases sep with
    | nil => exact absurd rfl hsep
    | cons c cs => cases hpre
  | cons c rest => rw [splitGo_cons_eq, if_pos hpre]

/-! ## `str.strip` lemmas -/

theorem pyStrip_fix_dropWhile (d : List Char) (h : pyStrip ⟨d⟩ = ⟨d⟩) :
    d.dropWhile isPySpace = d ∧ d.reverse.dropWhile isPySpace = d.reverse := by
  have hdata : ((d.dropWhile isPySpace).reverse.dropWhile isPySpace).reverse = d :=
    congrArg String.data h
  have l1 : ((d.dropWhile isPySpace).reverse.dropWhile isPySpace).length ≤
      (d.dropWhile isPySpace).length := by
    have h1 := (List.dropWhile_suffix (l := (d.dropWhile isPySpace).reverse)
      isPySpace).length_le
    simpa using h1
  have l2 : (d.dropWhile isPySpace).length ≤ d.length :=
    (List.dropWhile_suffix isPySpace).length_le
  have l4 : ((d.dropWhile isPySpace).reverse.dropWhile isPySpace).length = d.length := by
    have h2 := congrArg List.length hdata
    simpa using h2
  have hu : d.dropWhile isPySpace = d :=
    (List.dropWhile_suffix isPySpace).eq_of_length (by omega)
  refine ⟨hu, ?_⟩
  rw [hu] at hdata l4
  have hsuf : d.reverse.dropWhile isPySpace <:+ d.reverse := List.dropWhile_suffix _
  exact hsuf.eq_of_length (by rw [List.length_reverse]; omega)

theorem isPySpace_newline : isPySpace '\n' = true := by decide

theorem pyStrip_newline_wrap (d : List Char) (h : pyStrip ⟨d⟩ = ⟨d⟩) :
    pyStrip ⟨'\n' :: (d ++ ['\n'])⟩ = ⟨d⟩ := by
  obtain ⟨P1, P2⟩ := pyStrip_fix_dropWhile d h
  unfold pyStrip
  cases d with
  | nil => rfl
  | cons c d' =>
    have hc : isPySpace c = false := by
      cases hcc : isPySpace c with
      | false => rfl
      | true =>
        rw [List.dropWhile_cons_of_pos hcc] at P1
        have hlen := (List.dropWhile_suffix (l := d') isPySpace).length_le
        have h2 := congrArg List.length P1
        simp at h2
        omega
    show (⟨((('\n' :: ((c :: d') ++ ['\n'])).dropWhile isPySpace).reverse.dropWhile
        isPySpace).reverse⟩ : String) = ⟨c :: d'⟩
    rw [List.dropWhile_cons_of_pos isPySpace_newline, List.cons_append,
      List.dropWhile_cons_of_neg (by simp [hc])]
    rw [show (c :: (d' ++ ['\n'])).reverse = '\n' :: (c :: d').reverse by
      rw [show (c :: (d' ++ ['\n'])) = (c :: d') ++ ['\n'] by simp,
        List.reverse_append]
      rfl]
    rw [List.dropWhile_cons_of_pos isPySpace_newline, P2, List.reverse_reverse]

/-! ## Fence-stripping computations -/

theorem sepJson_eq : "```json".data = ['`', '`', '`', 'j', 's', 'o', 'n'] := rfl

theorem sepTick_eq : "```".data = ['`', '`', '`'] := rfl

theorem notMem_wrapCore (d : List Char) (hd : '`' ∉ d) :
    '`' ∉ '\n' :: (d ++ ['\n']) := by
  intro hmem
  rcases List.mem_cons.mp hmem with h1 | h2
  · exact absurd h1 (by decide)
  · rcases List.mem_append.mp h2 with h3 | h4
    · exact hd h3
    · exact absurd (List.mem_singleton.mp h4) (by decide)

theorem freeOf_sepJson_tail (d : List Char) (hd : '`' ∉ d) :
    FreeOf "```json".data ('\n' :: (d ++ ['\n', '`', '`', '`'])) := by
  have hshape : '\n' :: (d ++ ['\n', '`', '`', '`']) =
      ('\n' :: (d ++ ['\n'])) ++ ['`', '`', '`'] := by simp
  rw [hshape, sepJson_eq]
  exact freeOf_append '`' _ _ _ (notMem_wrapCore d hd)
    (freeOf_of_short _ _ (by decide))

theorem pySplit_json_fence (d : List Char) (hd : '`' ∉ d) :
    pySplit ⟨'`' :: '`' :: '`' :: 'j' :: 's' :: 'o' :: 'n' :: '\n' ::
        (d ++ ['\n', '`', '`', '`'])⟩ "```json" =
      ["", ⟨'\n' :: (d ++ ['\n', '`', '`', '`'])⟩] := by
  unfold pySplit
  have hshape : ('`' :: '`' :: '`' :: 'j' :: 's' :: 'o' :: 'n' :: '\n' ::
      (d ++ ['\n', '`', '`', '`'])) =
      "```json".data ++ ('\n' :: (d ++ ['\n', '`', '`', '`'])) := by
    rw [sepJson_eq]; rfl
  have hlen : ('`' :: '`' :: '`' :: 'j' :: 's' :: 'o' :: 'n' :: '\n' ::
      (d ++ ['\n', '`', '`', '`'])).length + 1 =
      ('\n' :: (d ++ ['\n', '`', '`', '`'])).length + 7 + 1 := by
    simp
  show (splitGo "```json".data _ ('`' :: '`' :: '`' :: 'j' :: 's' :: 'o' :: 'n' :: '\n' ::
      (d ++ ['\n', '`', '`', '`'])) []).map (fun l => (⟨l⟩ : String)) = _
  rw [hlen, splitGo_hit "```json".data _ (by decide) _ [] (by
    rw [hshape]; exact isPrefixOf_append_self _ _)]
  have hdrop : (('`' :: '`' :: '`' :: 'j' :: 's' :: 'o' :: 'n' :: '\n' ::
      (d ++ ['\n', '`', '`', '`'])).drop ("```json".data.length)) =
      '\n' :: (d ++ ['\n', '`', '`', '`']) := rfl
  rw [hdrop]
  rw [splitGo_free "```json".data _ _ [] (freeOf_sepJson_tail d hd) (by simp)]
  rfl

theorem pySplit_close_fence (d : List Char) (hd : '`' ∉ d) :
    pySplit ⟨'\n' :: (d ++ ['\n', '`', '`', '`'])⟩ "```" =
      [⟨'\n' :: (d ++ ['\n'])⟩, ""] := by
  unfold pySplit
  have hshape : ('\n' :: (d ++ ['\n', '`', '`', '`'])) =
      ('\n' :: (d ++ ['\n'])) ++ ['`', '`', '`'] := by simp
  have hlen : ('\n' :: (d ++ ['\n', '`', '`', '`'])).length + 1 =
      ('\n' :: (d ++ ['\n'])).length + 4 := by simp
  rw [hlen, hshape, sepTick_eq]
  rw [show (['`', '`', '`'] : List Char) = '`' :: ['`', '`'] from rfl]
  rw [splitGo_skip '`' ['`', '`'] ('\n' :: (d ++ ['\n']))
    (notMem_wrapCore d hd) 4 ('`' :: ['`', '`']) []]
  rw [show (4 : Nat) = 3 + 1 from rfl]
  rw [splitGo_hit ('`' :: ['`', '`']) ('`' :: ['`', '`']) (by decide) 3 _ (by decide)]
  rw [show splitGo ('`' :: ['`', '`']) 3
      (('`' :: ['`', '`']).drop ('`' :: ['`', '`']).length) [] = [[]] from rfl]
  simp

theorem freeOf_sepJson_untagged (d : List Char) (hd : '`' ∉ d) :
    FreeOf "```json".data
      ('`' :: '`' :: '`' :: '\n' :: (d ++ ['\n', '`', '`', '`'])) := by
  refine (freeOf_cons_iff _ _ _).mpr ⟨rfl, ?_⟩
  refine (freeOf_cons_iff _ _ _).mpr ⟨rfl, ?_⟩
  refine (freeOf_cons_iff _ _ _).mpr ⟨rfl, ?_⟩
  exact freeOf_sepJson_tail d hd

theorem pySplit_untagged_fence (d : List Char) (hd : '`' ∉ d) :
    pySplit ⟨'`' :: '`' :: '`' :: '\n' :: (d ++ ['\n', '`', '`', '`'])⟩ "```" =
      ["", ⟨'\n' :: (d ++ ['\n'])⟩, ""] := by
  unfold pySplit
  rw [splitGo_hit "```".data
    ('`' :: '`' :: '`' :: '\n' :: (d ++ ['\n', '`', '`', '`'])) (by decide)
    ('`' :: '`' :: '`' :: '\n' :: (d ++ ['\n', '`', '`', '`'])).length [] rfl]
  rw [show (('`' :: '`' :: '`' :: '\n' :: (d ++ ['\n', '`', '`', '`'])).drop
      ("```".data.length)) = '\n' :: (d ++ ['\n', '`', '`', '`']) from rfl]
  have harith : ('`' :: '`' :: '`' :: '\n' :: (d ++ ['\n', '`', '`', '`'])).length =
      ('\n' :: (d ++ ['\n'])).length + 6 := by simp
  have hshape : ('\n' :: (d ++ ['\n', '`', '`', '`'])) =
      ('\n' :: (d ++ ['\n'])) ++ ['`', '`', '`'] := by simp
  rw [harith, hshape, sepTick_eq,
    show (['`', '`', '`'] : List Char) = '`' :: ['`', '`'] from rfl]
  rw [show ('\n' :: (d ++ ['\n'])).length + 6 = ('\n' :: (d ++ ['\n'])).length + 6
    from rfl]
  rw [splitGo_skip '`' ['`', '`'] ('\n' :: (d ++ ['\n']))
    (notMem_wrapCore d hd) 6 ('`' :: ['`', '`']) []]
  rw [show (6 : Nat) = 5 + 1 from rfl]
  rw [splitGo_hit ('`' :: ['`', '`']) ('`' :: ['`', '`']) (by decide) 5 _ (by decide)]
  rw [show splitGo ('`' :: ['`', '`']) 5
      (('`' :: ['`', '`']).drop ('`' :: ['`', '`']).length) [] = [[]] from rfl]
  simp

theorem extractJson_json_tagged (d : List Char) (hd : '`' ∉ d)
    (hs : pyStrip ⟨d⟩ = ⟨d⟩) :
    extractJson ⟨'`' :: '`' :: '`' :: 'j' :: 's' :: 'o' :: 'n' :: '\n' ::
        (d ++ ['\n', '`', '`', '`'])⟩ = ⟨d⟩ := by
  unfold extractJson
  rw [if_pos (pyIn_of_isPrefixOf "```json"
    ⟨'`' :: '`' :: '`' :: 'j' :: 's' :: 'o' :: 'n' :: '\n' ::
      (d ++ ['\n', '`', '`', '`'])⟩ rfl)]
  rw [pySplit_json_fence d hd]
  rw [show ((["", (⟨'\n' :: (d ++ ['\n', '`', '`', '`'])⟩ : String)] : List String).getD 1 "") =
    ⟨'\n' :: (d ++ ['\n', '`', '`', '`'])⟩ from rfl]
  rw [pySplit_close_fence d hd]
  rw [show (([⟨'\n' :: (d ++ ['\n'])⟩, ""] : List String).getD 0 "") =
    (⟨'\n' :: (d ++ ['\n'])⟩ : String) from rfl]
  rw [show (⟨'\n' :: (d ++ ['\n'])⟩ : String) = ⟨'\n' :: d ++ ['\n']⟩ from rfl]
  exact pyStrip_newline_wrap d hs

theorem extractJson_untagged (d : List Char) (hd : '`' ∉ d)
    (hs : pyStrip ⟨d⟩ = ⟨d⟩) :
    extractJson ⟨'`' :: '`' :: '`' :: '\n' ::
        (d ++ ['\n', '`', '`', '`'])⟩ = ⟨d⟩ := by
  unfold extractJson
  rw [if_neg (by
    rw [pyIn_eq_false_of_freeOf _ _ (freeOf_sepJson_untagged d hd)]
    exact Bool.false_ne_true)]
  rw [if_pos (pyIn_of_isPrefixOf "```"
    ⟨'`' :: '`' :: '`' :: '\n' :: (d ++ ['\n', '`', '`', '`'])⟩ rfl)]
  rw [pySplit_untagged_fence d hd]
  rw [show ((["", (⟨'\n' :: (d ++ ['\n'])⟩ : String), ""] : List String).getD 1 "") =
    (⟨'\n' :: (d ++ ['\n'])⟩ : String) from rfl]
  exact pyStrip_newline_wrap d hs

theorem extractJson_bare (d : List Char) (hd : '`' ∉ d) :
    extractJson ⟨d⟩ = ⟨d⟩ := by
  unfold extractJson
  rw [if_neg (by
    rw [pyIn_eq_false_of_freeOf _ _ (by rw [sepJson_eq]; exact freeOf_of_not_mem '`' _ d hd)]
    exact Bool.false_ne_true)]
  rw [if_neg (by
    rw [pyIn_eq_false_of_freeOf _ _ (by rw [sepTick_eq]; exact freeOf_of_not_mem '`' _ d hd)]
    exact Bool.false_ne_true)]

/-! ## Concrete fixtures for counterexamples and witnesses -/

/-- Models `json.loads` on the finitely many judge reply texts used in the
concrete scenarios below: each listed text is mapped to exactly the JSON
value CPython's `json.loads` produces for it; any other text is the
`json.JSONDecodeError` raised on malformed input. -/
def loadsFixture : String → Except String Json := fun s =>
  if s == "\x7b\"marks\": 2, \"feedback\": \"partial credit\"\x7d" then
    Except.ok (Json.obj [("marks", Json.num 2), ("feedback", Json.str "partial credit")])
  else if s == "\x7b\"marks\": 5, \"feedback\": \"correct\"\x7d" then
    Except.ok (Json.obj [("marks", Json.num 5), ("feedback", Json.str "correct")])
  else if s == "\x7b\"marks\": 999, \"feedback\": \"excellent\"\x7d" then
    Except.ok (Json.obj [("marks", Json.num 999), ("feedback", Json.str "excellent")])
  else if s == "\x7b\"marks\": -3, \"feedback\": \"hostile\"\x7d" then
    Except.ok (Json.obj [("marks", Json.num (-3)), ("feedback", Json.str "hostile")])
  else if s == "\x7b\"marks\": \"ten\", \"feedback\": \"vague\"\x7d" then
    Except.ok (Json.obj [("marks", Json.str "ten"), ("feedback", Json.str "vague")])
  else if s == "\x7b\"marks\": 3, \"feedback\": \"ok\"\x7d" then
    Except.ok (Json.obj [("marks", Json.num 3), ("feedback", Json.str "ok")])
  else Except.error "Expecting value: line 1 column 1 (char 0)"

/-- A judge that replies with the same text to every prompt. -/
def judgeAlways (reply : String) : String → Except String String :=
  fun _ => Except.ok reply

def qMcq : Question :=
  { question_id := "q1", question_text := "What is 2 + 2?", question_type := "MCQ",
    marks := 5, correct_answer := some "4", options := ["3", "4", "5"],
    test_cases := [] }

def ansMcq : RespEntry := { question_type := some "MCQ", response := some "4" }

def testOneMcq : TestData :=
  { test_title := "Sample", total_duration := 60, total_marks := 5,
    sections := [{ section_name := "MCQ", questions := [qMcq] }],
    grading_rubric := [] }

def respMcq : ResponseSet :=
  { responses := [("q1", ansMcq)], evaluated := false, evaluations := [],
    score := none, overall_feedback := none }

def qEssay : Question :=
  { question_id := "q2", question_text := "Explain normalization.",
    question_type := "essay", marks := 5,
    correct_answer := some "Reduce redundancy", options := [], test_cases := [] }

def ansEssay : RespEntry :=
  { question_type := some "essay", response := some "It reduces redundancy." }

def testTwoQ : TestData :=
  { test_title := "Sample", total_duration := 60, total_marks := 10,
    sections := [{ section_name := "S1", questions := [qMcq, qEssay] }],
    grading_rubric := [] }

def respOnlyQ2 : ResponseSet :=
  { responses := [("q2", ansEssay)], evaluated := false, evaluations := [],
    score := none, overall_feedback := none }

/-! ## C1 -/

/-- C1 (counterexample): the claim says an answered mcq question is scored by
deterministic case-sensitive string equality with no model call, so a
response equal to `correct_answer` must score exactly `marks`.  In the code
the mcq branch only changes the prompt text; the stored score is whatever
the judge returns.  Here the response `"4"` matches `correct_answer "4"` on
a 5-mark mcq question, yet a judge answering "marks: 2" makes the evaluator
store score 2, not 5. -/
theorem C1_counterexample :
    (lookupDict "q1" respMcq.responses).map (fun e => e.response) = some (some "4") ∧
    qMcq.correct_answer = some "4" ∧ qMcq.marks = 5 ∧
    lookupDict "q1" (evaluate_with_llm
        (judgeAlways "\x7b\"marks\": 2, \"feedback\": \"partial credit\"\x7d")
        loadsFixture respMcq testOneMcq) =
      some { score := Json.num 2, feedback := Json.str "partial credit",
             evaluated := true } ∧
    Json.num 2 ≠ Json.num 5 := by
  refine ⟨rfl, rfl, rfl, rfl, ?_⟩
  intro h
  injection h with h2
  exact absurd h2 (by decide)

/-- C1 (amended): for an answered mcq question the evaluator issues a Judge
call (whose prompt instructs exact-match marking) and stores the parsed
reply's `marks`/`feedback` verbatim with `evaluated := true`; no local
comparison of the response with `correct_answer` determines the score, so
the stored score is whatever value `m` the judge reply carries. -/
theorem C1_amended (judge : String → Except String String)
    (jsonLoads : String → Except String Json) (q : Question) (e : RespEntry)
    (resp : ResponseSet) (title sname : String) (dur marks : Int)
    (rubric : List (String × Band)) (txt : String) (ev m f : Json)
    (hmcq : pyLower q.question_type = "mcq")
    (hans : lookupDict q.question_id resp.responses = some e)
    (hj : judge (buildPrompt q e) = Except.ok txt)
    (hp : jsonLoads (extractJson txt) = Except.ok ev)
    (hm : getField ev "marks" = Except.ok m)
    (hf : getField ev "feedback" = Except.ok f) :
    evaluate_with_llm judge jsonLoads resp
        { test_title := title, total_duration := dur, total_marks := marks,
          sections := [{ section_name := sname, questions := [q] }],
          grading_rubric := rubric } =
      [(q.question_id, { score := m, feedback := f, evaluated := true })] := by
  unfold evaluate_with_llm
  dsimp only
  simp only [List.foldl_cons, List.foldl_nil]
  rw [hans]
  dsimp only
  rw [judgeQuestion_ok judge jsonLoads q e txt ev m f hj hp hm hf]
  rfl

/-- C1 (witness): concrete instance of `C1_amended` with a judge answering
"marks: 5, feedback: correct". -/
theorem C1_witness :
    evaluate_with_llm (judgeAlways "\x7b\"marks\": 5, \"feedback\": \"correct\"\x7d")
        loadsFixture respMcq testOneMcq =
      [("q1", { score := Json.num 5, feedback := Json.str "correct",
                evaluated := true })] :=
  C1_amended (judgeAlways "\x7b\"marks\": 5, \"feedback\": \"correct\"\x7d")
    loadsFixture qMcq ansMcq respMcq "Sample" "MCQ" 60 5 [] _
    (Json.obj [("marks", Json.num 5), ("feedback", Json.str "correct")])
    (Json.num 5) (Json.str "correct") rfl rfl rfl rfl rfl rfl

/-! ## C2 -/

/-- C2 (counterexample): the claim says a question with no stored answer
gets an `EvaluationResult` with score 0, feedback "No answer submitted" and
`evaluated := true`.  The code has no such branch: an unanswered question is
skipped and the returned evaluations dict has no entry for it at all.  Here
`q1` belongs to the test and has no answer in the response set, and the
evaluation output contains no entry for `q1`. -/
theorem C2_counterexample :
    ("q1" ∈ (allQuestions testTwoQ).map (fun q => q.question_id)) ∧
    lookupDict "q1" respOnlyQ2.responses = none ∧
    lookupDict "q1" (evaluate_with_llm
        (judgeAlways "\x7b\"marks\": 3, \"feedback\": \"ok\"\x7d")
        loadsFixture respOnlyQ2 testTwoQ) = none := by
  refine ⟨by decide, rfl, ?_⟩
  exact evaluate_lookup_unanswered _ _ _ _ _ rfl

/-- C2 (amended): a question with no entry in the response map is skipped —
no `EvaluationResult` is emitted for it — and the entries of the other
questions are unaffected: each answered question occurring once in the test
is mapped exactly to the result computed from that question and its own
response. -/
theorem C2_amended (judge : String → Except String String)
    (jsonLoads : String → Except String Json) (test : TestData)
    (resp : ResponseSet) (qid : String)
    (h : lookupDict qid resp.responses = none) :
    lookupDict qid (evaluate_with_llm judge jsonLoads resp test) = none ∧
    ∀ qid2 q2 e2,
      (allQuestions test).filter (fun q3 => q3.question_id == qid2) = [q2] →
      lookupDict qid2 resp.responses = some e2 →
      lookupDict qid2 (evaluate_with_llm judge jsonLoads resp test) =
        some (judgeQuestion judge jsonLoads q2 e2) :=
  ⟨evaluate_lookup_unanswered judge jsonLoads resp test qid h,
   fun qid2 q2 e2 hf ha =>
     evaluate_lookup_unique judge jsonLoads resp test qid2 q2 e2 hf ha⟩

/-- C2 (witness): concrete instance of `C2_amended` — `q1` unanswered yields
no entry, the answered sibling `q2` gets its own judge-derived entry. -/
theorem C2_witness :
    lookupDict "q1" (evaluate_with_llm
        (judgeAlways "\x7b\"marks\": 3, \"feedback\": \"ok\"\x7d")
        loadsFixture respOnlyQ2 testTwoQ) = none ∧
    lookupDict "q2" (evaluate_with_llm
        (judgeAlways "\x7b\"marks\": 3, \"feedback\": \"ok\"\x7d")
        loadsFixture respOnlyQ2 testTwoQ) =
      some (judgeQuestion (judgeAlways "\x7b\"marks\": 3, \"feedback\": \"ok\"\x7d")
        loadsFixture qEssay ansEssay) := by
  have h := C2_amended (judgeAlways "\x7b\"marks\": 3, \"feedback\": \"ok\"\x7d")
    loadsFixture testTwoQ respOnlyQ2 "q1" rfl
  exact ⟨h.1, h.2 "q2" qEssay ansEssay rfl rfl⟩

/-! ## C3 -/

/-- C3 (counterexample): the claim says Judge scores are clamped into
`[0, marks]`.  The code stores `evaluation["marks"]` verbatim: a judge reply
of 999 on the 5-mark question `q2` is recorded as 999 (not 5), and a reply
of -3 is recorded as -3 (not 0). -/
theorem C3_counterexample :
    qEssay.marks = 5 ∧
    lookupDict "q2" (evaluate_with_llm
        (judgeAlways "\x7b\"marks\": 999, \"feedback\": \"excellent\"\x7d")
        loadsFixture respOnlyQ2 testTwoQ) =
      some { score := Json.num 999, feedback := Json.str "excellent",
             evaluated := true } ∧
    Json.num 999 ≠ Json.num 5 ∧
    lookupDict "q2" (evaluate_with_llm
        (judgeAlways "\x7b\"marks\": -3, \"feedback\": \"hostile\"\x7d")
        loadsFixture respOnlyQ2 testTwoQ) =
      some { score := Json.num (-3), feedback := Json.str "hostile",
             evaluated := true } ∧
    Json.num (-3) ≠ Json.num 0 := by
  refine ⟨rfl, rfl, ?_, rfl, ?_⟩
  · intro h; injection h with h2; exact absurd h2 (by decide)
  · intro h; injection h with h2; exact absurd h2 (by decide)

/-- C3 (amended): no clamping happens anywhere in the evaluation path: the
record stored for a Judge-scored question carries exactly the `marks` value
of the parsed reply — whatever it is, including values above `marks` or
negative — together with the reply's `feedback` and `evaluated := true`. -/
theorem C3_amended (judge : String → Except String String)
    (jsonLoads : String → Except String Json) (q : Question) (e : RespEntry)
    (txt : String) (ev m f : Json)
    (hj : judge (buildPrompt q e) = Except.ok txt)
    (hp : jsonLoads (extractJson txt) = Except.ok ev)
    (hm : getField ev "marks" = Except.ok m)
    (hf : getField ev "feedback" = Except.ok f) :
    (judgeQuestion judge jsonLoads q e).score = m ∧
    (judgeQuestion judge jsonLoads q e).feedback = f ∧
    (judgeQuestion judge jsonLoads q e).evaluated = true := by
  rw [judgeQuestion_ok judge jsonLoads q e txt ev m f hj hp hm hf]
  exact ⟨rfl, rfl, rfl⟩

/-- C3 (witness): concrete instance of `C3_amended` at the out-of-range
judge reply 999 on a 5-mark question. -/
theorem C3_witness :
    (judgeQuestion (judgeAlways "\x7b\"marks\": 999, \"feedback\": \"excellent\"\x7d")
      loadsFixture qEssay ansEssay).score = Json.num 999 :=
  (C3_amended (judgeAlways "\x7b\"marks\": 999, \"feedback\": \"excellent\"\x7d")
    loadsFixture qEssay ansEssay _
    (Json.obj [("marks", Json.num 999), ("feedback", Json.str "excellent")])
    (Json.num 999) (Json.str "excellent") rfl rfl rfl rfl).1

/-! ## C4 -/

def qA4 : Question :=
  { question_id := "a1", question_text := "Define ACID.", question_type := "essay",
    marks := 5, correct_answer := some "Atomicity consistency isolation durability",
    options := [], test_cases := [] }

def qB4 : Question :=
  { question_id := "a2", question_text := "Define CAP.", question_type := "essay",
    marks := 5, correct_answer := some "Consistency availability partition tolerance",
    options := [], test_cases := [] }

def qC4q : Question :=
  { question_id := "a3", question_text := "Define BASE.", question_type := "essay",
    marks := 5, correct_answer := some "Basically available soft state eventual",
    options := [], test_cases := [] }

def ans4 : RespEntry := { question_type := some "essay", response := some "An answer." }

def testThree : TestData :=
  { test_title := "Sample", total_duration := 60, total_marks := 15,
    sections := [{ section_name := "S", questions := [qA4, qB4, qC4q] }],
    grading_rubric := [] }

def respThree : ResponseSet :=
  { responses := [("a1", ans4), ("a2", ans4), ("a3", ans4)], evaluated := false,
    evaluations := [], score := none, overall_feedback := none }

/-- A judge that raises (transport error) exactly on the prompt of `qB4` and
answers "marks: 3, feedback: ok" on every other prompt. -/
def judgeFailMid : String → Except String String := fun p =>
  if p == buildPrompt qB4 ans4 then Except.error "boom"
  else Except.ok "\x7b\"marks\": 3, \"feedback\": \"ok\"\x7d"

/-- C4 (counterexample): the claim includes "the returned score is
non-numeric" among the conditions producing the failure placeholder
(score 0, evaluated false).  The code never coerces the score: a reply that
parses with `marks` equal to the string "ten" is stored verbatim with
`evaluated := true` and a non-zero, non-numeric score. -/
theorem C4_counterexample :
    lookupDict "q2" (evaluate_with_llm
        (judgeAlways "\x7b\"marks\": \"ten\", \"feedback\": \"vague\"\x7d")
        loadsFixture respOnlyQ2 testTwoQ) =
      some { score := Json.str "ten", feedback := Json.str "vague",
             evaluated := true } ∧
    pyNum? (Json.str "ten") = none := ⟨rfl, rfl⟩

/-- C4 (amended): if the Judge call raises, or its reply fails to parse, the
evaluator records score 0 with feedback "Automatic evaluation failed:
<reason>" and `evaluated := false` for that question only, and every other
answered question still gets the entry computed from its own question and
response (the failure never aborts siblings).  A parsed reply with a
non-numeric `marks` value is *not* treated as a failure (see the
counterexample): it is stored verbatim with `evaluated := true`. -/
theorem C4_amended (judge : String → Except String String)
    (jsonLoads : String → Except String Json) (test : TestData)
    (resp : ResponseSet) (q : Question) (e : RespEntry) (eMsg : String) :
    (judge (buildPrompt q e) = Except.error eMsg →
      judgeQuestion judge jsonLoads q e =
        { score := Json.num 0,
          feedback := Json.str ("Automatic evaluation failed: " ++ eMsg),
          evaluated := false }) ∧
    (∀ txt, judge (buildPrompt q e) = Except.ok txt →
      jsonLoads (extractJson txt) = Except.error eMsg →
      judgeQuestion judge jsonLoads q e =
        { score := Json.num 0,
          feedback := Json.str ("Automatic evaluation failed: " ++ eMsg),
          evaluated := false }) ∧
    (∀ qid2 q2 e2,
      (allQuestions test).filter (fun q3 => q3.question_id == qid2) = [q2] →
      lookupDict qid2 resp.responses = some e2 →
      lookupDict qid2 (evaluate_with_llm judge jsonLoads resp test) =
        some (judgeQuestion judge jsonLoads q2 e2)) :=
  ⟨fun hj => judgeQuestion_judge_error judge jsonLoads q e eMsg hj,
   fun txt hj hp => judgeQuestion_parse_error judge jsonLoads q e txt eMsg hj hp,
   fun qid2 q2 e2 hf ha =>
     evaluate_lookup_unique judge jsonLoads resp test qid2 q2 e2 hf ha⟩

set_option maxRecDepth 16384 in
/-- C4 (witness): a judge raising on exactly the middle question of three:
the middle entry is the failure placeholder, the two siblings still carry
their own judge-derived results. -/
theorem C4_witness :
    lookupDict "a2" (evaluate_with_llm judgeFailMid loadsFixture respThree testThree) =
      some { score := Json.num 0,
             feedback := Json.str "Automatic evaluation failed: boom",
             evaluated := false } ∧
    lookupDict "a1" (evaluate_with_llm judgeFailMid loadsFixture respThree testThree) =
      some { score := Json.num 3, feedback := Json.str "ok", evaluated := true } ∧
    lookupDict "a3" (evaluate_with_llm judgeFailMid loadsFixture respThree testThree) =
      some { score := Json.num 3, feedback := Json.str "ok", evaluated := true } := by
  have h := C4_amended judgeFailMid loadsFixture testThree respThree qB4 ans4 "boom"
  refine ⟨?_, ?_, ?_⟩
  · rw [h.2.2 "a2" qB4 ans4 rfl rfl, h.1 rfl]
    rfl
  · rw [h.2.2 "a1" qA4 ans4 rfl rfl]; rfl
  · rw [h.2.2 "a3" qC4q ans4 rfl rfl]; rfl

/-! ## C5 -/

def rubric4 : List (String × Band) :=
  [("excellent", { score_range := "90-100", description := "Excellent understanding" }),
   ("good", { score_range := "70-89", description := "Good understanding" }),
   ("average", { score_range := "40-69", description := "Average understanding" }),
   ("poor", { score_range := "0-39", description := "Poor understanding" })]

set_option maxRecDepth 16384 in
/-- C5 (counterexample): the claim says a band whose range parts are
non-numeric is skipped silently.  The loop first deletes every `%` from the
range string (final.py:1140), so the range "40%-69%" — whose parts "40%" and
"69%" are not parseable numbers — is *not* skipped: it matches percentage
50 and its description is returned. -/
theorem C5_counterexample :
    parsePyFloat? "40%" = none ∧
    rubricResolve 50
        [("average", { score_range := "40%-69%",
                       description := "Average understanding" })] =
      some "Average understanding" := ⟨rfl, by decide⟩

/-- C5 (amended): rubric resolution scans the bands in iteration order and
returns the description of the first band that accepts the percentage —
where a band accepts it when its `score_range` contains `-` and, after
deleting every `%`, splits on `-` into exactly two float-parseable bounds
`low`/`high` with `low ≤ percentage ≤ high` (boundaries inclusive).  Bands
that do not accept (no `-`, non-numeric parts after `%`-removal, or
percentage out of range) are skipped silently; an empty rubric, or no
accepting band, yields no band rather than an error. -/
theorem C5_amended (p : ℚ) (rubric : List (String × Band)) :
    rubricResolve p [] = none ∧
    (∀ d, rubricResolve p rubric = some d →
      ∃ pre name b post, rubric = pre ++ (name, b) :: post ∧ d = b.description ∧
        bandAccepts p b ∧ ∀ nb ∈ pre, ¬ bandAccepts p nb.2) ∧
    (rubricResolve p rubric = none → ∀ nb ∈ rubric, ¬ bandAccepts p nb.2) :=
  ⟨rfl, fun d h => rubricResolve_sound p rubric d h,
   fun h nb hnb => rubricResolve_none_complete p rubric h nb hnb⟩

set_option maxRecDepth 16384 in
/-- C5 (witness): concrete instance — resolving 75 against the four standard
bands selects the "good" band (70-89), whose acceptance is extracted from
`C5_amended`. -/
theorem C5_witness :
    bandAccepts (75 : ℚ)
      { score_range := "70-89", description := "Good understanding" } := by
  obtain ⟨pre, name, b, post, hsplit, hd, hacc, -⟩ :=
    (C5_amended 75 rubric4).2.1 "Good understanding" (by decide)
  have hb : (name, b) ∈ rubric4 := by
    rw [hsplit]
    exact List.mem_append_right _ (List.mem_cons_self _ _)
  simp only [rubric4, List.mem_cons, List.not_mem_nil, or_false,
    Prod.mk.injEq] at hb
  rcases hb with ⟨-, rfl⟩ | ⟨-, rfl⟩ | ⟨-, rfl⟩ | ⟨-, rfl⟩
  · exact absurd hd (by decide)
  · exact hacc
  · exact absurd hd (by decide)
  · exact absurd hd (by decide)

/-! ## C6 -/

def testZero : TestData := { testOneMcq with total_marks := 0 }

/-- C6 (code bug): the claim — matching §4.1/§7 of the spec and the guarded
computation in `analyze_student_performance` (final.py:1701) — says the
percentage is 0 when `total_marks` is 0 and the evaluation completes.  The
Evaluate Responses page (final.py:1130) divides by `total_marks` with no
guard: with `total_marks = 0` the page raises `ZeroDivisionError` before
setting `evaluated`, while `analyze_student_performance` on the same data
returns the safe 0. -/
theorem C6_code_bug :
    testZero.total_marks = 0 ∧
    process_response (judgeAlways "\x7b\"marks\": 3, \"feedback\": \"ok\"\x7d")
        loadsFixture testZero respMcq =
      Except.error "ZeroDivisionError: division by zero" ∧
    analyze_percentage respMcq testZero = Except.ok 0 := ⟨rfl, rfl, rfl⟩

/-! ## C7 -/

def respAlready : ResponseSet :=
  { responses := [("q1", ansMcq)], evaluated := true,
    evaluations := [("q1", { score := Json.num 5, feedback := Json.str "old",
                             evaluated := true })],
    score := some 5, overall_feedback := some "old" }

/-- C7 (counterexample): the claim says evaluating a ResponseSet whose
`evaluated` flag is true fails with `AlreadyEvaluatedError` and leaves the
stored evaluations untouched.  No such error exists: `evaluate_with_llm`
never reads the flag and happily recomputes — on an already-evaluated set
(stored score 5) it returns a fresh evaluations map with the new
judge-derived score 2. -/
theorem C7_counterexample :
    respAlready.evaluated = true ∧
    evaluate_with_llm
        (judgeAlways "\x7b\"marks\": 2, \"feedback\": \"partial credit\"\x7d")
        loadsFixture respAlready testOneMcq =
      [("q1", { score := Json.num 2, feedback := Json.str "partial credit",
                evaluated := true })] ∧
    lookupDict "q1" respAlready.evaluations =
      some { score := Json.num 5, feedback := Json.str "old", evaluated := true } ∧
    Json.num 2 ≠ Json.num 5 := by
  refine ⟨rfl, rfl, rfl, ?_⟩
  intro h
  injection h with h2
  exact absurd h2 (by decide)

/-- C7 (amended): there is no `AlreadyEvaluatedError` anywhere: the
evaluator itself ignores the `evaluated` flag (its output is identical for
any flag value), and re-evaluation is prevented only upstream — the page
and `batch_evaluate_responses` select responses with `evaluated ≠ true`
from storage, so a batch over already-evaluated sets processes nothing and
stores nothing ("No unevaluated responses found"). -/
theorem C7_amended (judge : String → Except String String)
    (jsonLoads : String → Except String Json) (test td : TestData)
    (resp : ResponseSet) (b : Bool) (rs : List ResponseSet) :
    evaluate_with_llm judge jsonLoads { resp with evaluated := b } test =
      evaluate_with_llm judge jsonLoads resp test ∧
    ((∀ r ∈ rs, r.evaluated = true) →
      batch_evaluate_responses judge jsonLoads (some td) rs =
        { ok := false, message := "No unevaluated responses found",
          succeeded := 0, failed := 0, stored := [] }) := by
  refine ⟨rfl, fun h => ?_⟩
  unfold batch_evaluate_responses
  have hfilter : rs.filter (fun r => !r.evaluated) = [] :=
    List.filter_eq_nil_iff.mpr (fun r hr => by simp [h r hr])
  rw [hfilter]
  rfl

/-- C7 (witness): concrete instance of `C7_amended` — flipping the flag does
not change the evaluation output, and a batch whose stored responses are all
evaluated reports "No unevaluated responses found" without touching any. -/
theorem C7_witness :
    evaluate_with_llm
        (judgeAlways "\x7b\"marks\": 2, \"feedback\": \"partial credit\"\x7d")
        loadsFixture { respMcq with evaluated := true } testOneMcq =
      evaluate_with_llm
        (judgeAlways "\x7b\"marks\": 2, \"feedback\": \"partial credit\"\x7d")
        loadsFixture respMcq testOneMcq ∧
    batch_evaluate_responses
        (judgeAlways "\x7b\"marks\": 2, \"feedback\": \"partial credit\"\x7d")
        loadsFixture (some testOneMcq) [respAlready] =
      { ok := false, message := "No unevaluated responses found",
        succeeded := 0, failed := 0, stored := [] } := by
  have h := C7_amended
    (judgeAlways "\x7b\"marks\": 2, \"feedback\": \"partial credit\"\x7d")
    loadsFixture testOneMcq testOneMcq respMcq true [respAlready]
  exact ⟨h.1, h.2 (by intro r hr; simp at hr; rw [hr]; rfl)⟩

/-! ## C8 -/

theorem length_filter_not {α : Type} (p : α → Bool) (l : List α) :
    (l.filter p).length + (l.filter (fun a => !(p a))).length = l.length := by
  induction l with
  | nil => rfl
  | cons a l ih =>
    cases ha : p a with
    | true =>
      rw [List.filter_cons_of_pos (by simp [ha]),
        List.filter_cons_of_neg (by simp [ha])]
      simp only [List.length_cons]
      omega
    | false =>
      rw [List.filter_cons_of_neg (by simp [ha]),
        List.filter_cons_of_pos (by simp [ha])]
      simp only [List.length_cons]
      omega

theorem batch_item_evaluated (judge : String → Except String String)
    (jsonLoads : String → Except String Json) (td : TestData) (r u : ResponseSet)
    (h : (batch_item judge jsonLoads td r).toOption = some u) : u.evaluated = true := by
  unfold batch_item at h
  dsimp only at h
  cases hs : pySum ((evaluate_with_llm judge jsonLoads r td).map (fun p => p.2.score)) with
  | error e =>
    rw [hs] at h
    simp [Except.map, Except.toOption] at h
  | ok t =>
    rw [hs] at h
    simp only [Except.map, Except.toOption] at h
    injection h with h2
    rw [← h2]

/-- C8: the batch runner processes every unevaluated response set
independently: it reports ok with counts summing to the number of inputs,
the succeeded count is exactly the number of items whose per-item processing
succeeds, every successful item is stored fully evaluated (no failure
short-circuits the rest), and the returned message reports the two counts. -/
theorem C8_batch (judge : String → Except String String)
    (jsonLoads : String → Except String Json) (td : TestData)
    (rs : List ResponseSet) (h1 : ∀ r ∈ rs, r.evaluated = false) (h2 : rs ≠ []) :
    (batch_evaluate_responses judge jsonLoads (some td) rs).ok = true ∧
    (batch_evaluate_responses judge jsonLoads (some td) rs).succeeded +
      (batch_evaluate_responses judge jsonLoads (some td) rs).failed = rs.length ∧
    (batch_evaluate_responses judge jsonLoads (some td) rs).succeeded =
      (rs.filter (fun r => (batch_item judge jsonLoads td r).toOption.isSome)).length ∧
    (batch_evaluate_responses judge jsonLoads (some td) rs).stored =
      rs.filterMap (fun r => (batch_item judge jsonLoads td r).toOption) ∧
    (∀ s ∈ (batch_evaluate_responses judge jsonLoads (some td) rs).stored,
      s.evaluated = true) ∧
    (batch_evaluate_responses judge jsonLoads (some td) rs).message =
      "Evaluated " ++
        toString (batch_evaluate_responses judge jsonLoads (some td) rs).succeeded ++
        " responses successfully. " ++
        toString (batch_evaluate_responses judge jsonLoads (some td) rs).failed ++
        " failed." := by
  have hfilter : rs.filter (fun r => !r.evaluated) = rs :=
    List.filter_eq_self.mpr (fun r hr => by simp [h1 r hr])
  have hempty : rs.isEmpty = false := by
    cases rs with
    | nil => exact absurd rfl h2
    | cons r rs => rfl
  have hB : batch_evaluate_responses judge jsonLoads (some td) rs =
      { ok := true,
        message := "Evaluated " ++
          toString ((rs.filter
            (fun r => (batch_item judge jsonLoads td r).toOption.isSome)).length) ++
          " responses successfully. " ++
          toString ((rs.filter
            (fun r => !(batch_item judge jsonLoads td r).toOption.isSome)).length) ++
          " failed.",
        succeeded := (rs.filter
          (fun r => (batch_item judge jsonLoads td r).toOption.isSome)).length,
        failed := (rs.filter
          (fun r => !(batch_item judge jsonLoads td r).toOption.isSome)).length,
        stored := rs.filterMap (fun r => (batch_item judge jsonLoads td r).toOption) } := by
    unfold batch_evaluate_responses
    dsimp only
    rw [hfilter, if_neg (by simp [hempty]),
      batch_foldl_counts (batch_item judge jsonLoads td) rs 0 0 []]
    simp
  refine ⟨by rw [hB], ?_, by rw [hB], by rw [hB], ?_, by rw [hB]⟩
  · rw [hB]
    exact length_filter_not (fun r => (batch_item judge jsonLoads td r).toOption.isSome) rs
  · intro s hsmem
    rw [hB] at hsmem
    obtain ⟨r, hr, hsome⟩ := List.mem_filterMap.mp hsmem
    exact batch_item_evaluated judge jsonLoads td r s hsome

def ansCrash : RespEntry := { question_type := some "MCQ", response := some "CRASH" }

def respCrash : ResponseSet :=
  { responses := [("q1", ansCrash)], evaluated := false, evaluations := [],
    score := none, overall_feedback := none }

/-- A judge whose reply depends on the response: the "CRASH" answer draws a
reply with a non-numeric marks value (so summing the stored score later
raises), every other prompt draws a well-formed reply. -/
def judgeBatch : String → Except String String := fun p =>
  if p == buildPrompt qMcq ansCrash then
    Except.ok "\x7b\"marks\": \"ten\", \"feedback\": \"vague\"\x7d"
  else Except.ok "\x7b\"marks\": 5, \"feedback\": \"correct\"\x7d"

set_option maxRecDepth 16384 in
/-- C8 (witness): five unevaluated response sets of which exactly one (the
"CRASH" one) hard-fails during its per-item processing — the batch reports
succeeded 4, failed 1. -/
theorem C8_witness :
    (batch_evaluate_responses judgeBatch loadsFixture (some testOneMcq)
      [respMcq, respMcq, respMcq, respMcq, respCrash]).succeeded = 4 ∧
    (batch_evaluate_responses judgeBatch loadsFixture (some testOneMcq)
      [respMcq, respMcq, respMcq, respMcq, respCrash]).failed = 1 := by
  have h := C8_batch judgeBatch loadsFixture testOneMcq
    [respMcq, respMcq, respMcq, respMcq, respCrash]
    (by intro r hr; simp at hr; rcases hr with rfl | rfl | rfl | rfl | rfl <;> rfl)
    (by simp)
  have hsucc : (batch_evaluate_responses judgeBatch loadsFixture (some testOneMcq)
      [respMcq, respMcq, respMcq, respMcq, respCrash]).succeeded = 4 := by
    rw [h.2.2.1]
    rfl
  have hsum := h.2.1
  simp only [List.length_cons, List.length_nil] at hsum
  exact ⟨hsucc, by omega⟩

/-! ## C9 -/

/-- C9 (counterexample): the claim says a reply wrapped in a fenced block
with *any* language tag strips to the same text as the untagged and bare
forms.  Only the tag `json` is special-cased: with tag `python` the split on
the bare fence marker leaves the tag in the text, so the stripped result is
"python\nRESULT", not "RESULT". -/
theorem C9_counterexample :
    extractJson "```python\nRESULT\n```" = "python\nRESULT" ∧
    extractJson "RESULT" = "RESULT" ∧
    ("python\nRESULT" : String) ≠ "RESULT" := ⟨rfl, rfl, by decide⟩

/-- C9 (amended): for every inner text containing no backtick and equal to
its own strip, the reply wrapped in a fence tagged `json` and the reply
wrapped in an untagged fence both strip to exactly the inner text, the same
result as the bare text (which passes through unchanged); a tag other than
`json` is not stripped (see the counterexample). -/
theorem C9_amended (t : String) (h1 : '`' ∉ t.data) (h2 : pyStrip t = t) :
    extractJson ("```json\n" ++ t ++ "\n```") = t ∧
    extractJson ("```\n" ++ t ++ "\n```") = t ∧
    extractJson t = t := by
  obtain ⟨d⟩ := t
  refine ⟨?_, ?_, ?_⟩
  · show extractJson ⟨'`' :: '`' :: '`' :: 'j' :: 's' :: 'o' :: 'n' :: '\n' ::
        (d ++ ['\n', '`', '`', '`'])⟩ = ⟨d⟩
    exact extractJson_json_tagged d h1 h2
  · show extractJson ⟨'`' :: '`' :: '`' :: '\n' :: (d ++ ['\n', '`', '`', '`'])⟩ = ⟨d⟩
    exact extractJson_untagged d h1 h2
  · exact extractJson_bare d h1

/-- C9 (witness): concrete instance of `C9_amended` at the inner text
"RESULT". -/
theorem C9_witness :
    extractJson "```json\nRESULT\n```" = "RESULT" ∧
    extractJson "```\nRESULT\n```" = "RESULT" ∧
    extractJson "RESULT" = "RESULT" :=
  C9_amended "RESULT" (by decide) rfl

/-! ## C10 -/

/-- C10: invariants of the evaluation output: (1) the returned map has an
entry exactly for the question ids that occur in the test's sections *and*
in the response map (each entry being an `EvalResult`, i.e. exactly the
fields score/feedback/evaluated by construction); (2) every entry with
`evaluated = false` carries score 0; (3) whenever the page processing
succeeds, the total score it stores is the sum (`pySum`) of the per-entry
scores of the returned map. -/
theorem C10_invariant (judge : String → Except String String)
    (jsonLoads : String → Except String Json) (test : TestData)
    (resp : ResponseSet) :
    (∀ qid, (lookupDict qid (evaluate_with_llm judge jsonLoads resp test)).isSome =
        true ↔
      (qid ∈ (allQuestions test).map (fun q => q.question_id) ∧
        (lookupDict qid resp.responses).isSome = true)) ∧
    (∀ p ∈ evaluate_with_llm judge jsonLoads resp test,
      p.2.evaluated = false → p.2.score = Json.num 0) ∧
    (∀ pr, process_response judge jsonLoads test resp = Except.ok pr →
      pySum ((evaluate_with_llm judge jsonLoads resp test).map (fun p => p.2.score)) =
        Except.ok pr.score) := by
  refine ⟨fun qid => evaluate_lookup_isSome judge jsonLoads resp test qid,
    mem_evaluate_score_zero judge jsonLoads resp test, ?_⟩
  intro pr hpr
  unfold process_response at hpr
  dsimp only at hpr
  cases hs : pySum ((evaluate_with_llm judge jsonLoads resp test).map
      (fun p => p.2.score)) with
  | error e =>
    rw [hs] at hpr
    cases hpr
  | ok t =>
    rw [hs] at hpr
    dsimp only at hpr
    by_cases hz : test.total_marks = 0
    · rw [if_pos hz] at hpr
      cases hpr
    · rw [if_neg hz] at hpr
      injection hpr with hrec
      rw [← hrec]

/-- C10 (witness): concrete instance — the answered question `q1` of the
one-question test has an entry in the returned evaluations map. -/
theorem C10_witness :
    (lookupDict "q1" (evaluate_with_llm
        (judgeAlways "\x7b\"marks\": 5, \"feedback\": \"correct\"\x7d")
        loadsFixture respMcq testOneMcq)).isSome = true :=
  ((C10_invariant (judgeAlways "\x7b\"marks\": 5, \"feedback\": \"correct\"\x7d")
      loadsFixture testOneMcq respMcq).1 "q1").mpr ⟨by decide, rfl⟩
